import Mathlib

/-!
Verification of the Pyscord (pincer) gateway middleware and guild decoding
against its specification.

The development shallowly embeds the Python sources:

* `src/pincer/middleware/guild_role_update.py` (guild_role_update_middleware)
* `src/pincer/middleware/message_create.py` (message_create_middleware)
* `src/pincer/objects/guild/guild.py` (Guild.from_dict, the unavailable field)

Components of the repository that are not under src (the session state
machine, the dispatcher, the wire codec, and the declarative data-object
decode layer) are modelled from the specification; each such definition
carries a doc comment starting with `Modelled from the spec:`.

Python dictionaries are embedded as association lists of string keys and
`PyValue` values; mutation of the shared guild cache is embedded as explicit
state passing of a `String → Option Guild` map.
-/

/-- A model of the Python values that appear in gateway payload
dictionaries: None, booleans, integers, strings, lists, nested
dictionaries, and opaque object references (used for the client and http
objects the middleware injects into a payload). -/
inductive PyValue where
  | vnone : PyValue
  | vbool (b : Bool) : PyValue
  | vint (n : Int) : PyValue
  | vstr (s : String) : PyValue
  | vlist (xs : List PyValue) : PyValue
  | vdict (entries : List (String × PyValue)) : PyValue
  | vobj (ref : Nat) : PyValue

/-- A Python dictionary with string keys, as an association list.
Python dictionaries have unique keys; lookup takes the first match. -/
abbrev PyDict : Type := List (String × PyValue)

/-- Embedding of Python `d[k]` and `d.get(k)`: first entry whose key is
`k`, if any. -/
def pyDictGet (d : PyDict) (k : String) : Option PyValue :=
  match d with
  | [] => none
  | (k0, v) :: rest => if k0 = k then some v else pyDictGet rest k

/-- Embedding of Python `d.get(k, default)`. -/
def pyDictGetD (d : PyDict) (k : String) (default : PyValue) : PyValue :=
  (pyDictGet d k).getD default

/-- Embedding of Python truthiness for the modelled values: None and
False are falsy, numbers are truthy when nonzero, strings and collections
when nonempty, object references always. -/
def pyTruthy : PyValue → Bool
  | .vnone => false
  | .vbool b => b
  | .vint n => n != 0
  | .vstr s => s ≠ ""
  | .vlist xs => !xs.isEmpty
  | .vdict entries => !entries.isEmpty
  | .vobj _ => true

/-- Embedding of the Python dictionary literal
`{**base, **extra}` (and of `{"k": v, ..., **extra}`): the resulting
dictionary maps a key to its value in `extra` when present there, else to
its value in `base`.  Key insertion order is abstracted; lookup semantics
are preserved. -/
def pyMerge (base extra : PyDict) : PyDict :=
  base.filter (fun p => (pyDictGet extra p.fst).isNone) ++ extra

/-- Modelled from the spec: the Role data object
(src/pincer/objects/guild/role.py is not under src).  The specification
scenario uses a role with an id and a name; identity match in the
role-update transform is on the id. -/
structure Role where
  id : String
  name : String
deriving DecidableEq, Repr

/-- Modelled from the spec: decode of a Role from a wire dictionary
(the data-object decode layer is an external collaborator,
`decode(raw) -> T | DecodeError`). -/
def Role.from_dict (v : PyValue) : Option Role :=
  match v with
  | .vdict d =>
    match pyDictGet d "id", pyDictGet d "name" with
    | some (.vstr i), some (.vstr n) => some ⟨i, n⟩
    | _, _ => none
  | _ => none

/-- Embedding of the Guild dataclass of src/pincer/objects/guild/guild.py,
restricted to a representative subset of its fields: the id, name,
owner_id and afk_timeout stand in for the many scalar fields, `roles` is
the role collection the role-update transform mutates, and `unavailable`
is the APINullable field whose dataclass default is `False` (line 343 of
the source).  The remaining ~40 fields of the dataclass behave exactly
like the scalar fields kept here and play no role in the verified
claims. -/
structure Guild where
  id : String
  name : String
  owner_id : String
  afk_timeout : Nat
  roles : List Role
  unavailable : Bool
deriving DecidableEq, Repr

/-- The client guild cache, `self.guilds : Dict[Snowflake, Guild]`,
embedded as a lookup function.  In-place mutation of a cached guild is
embedded as pointwise update of this map. -/
abbrev GuildCache : Type := String → Option Guild

/-- Modelled from the spec: the GuildRoleUpdateEvent data object
(src/pincer/objects/events/guild.py is not under src).  Per the
specification scenario its data carries a guild_id and the updated
role. -/
structure GuildRoleUpdateEvent where
  guild_id : String
  role : Role
deriving DecidableEq, Repr

/-- Modelled from the spec: decode of a GuildRoleUpdateEvent from the
dispatch payload data, `{guild_id: ..., role: {id: ..., name: ...}}`. -/
def GuildRoleUpdateEvent.from_dict (d : PyDict) : Option GuildRoleUpdateEvent :=
  match pyDictGet d "guild_id", (pyDictGet d "role").bind Role.from_dict with
  | some (.vstr g), some r => some ⟨g, r⟩
  | _, _ => none

/-- Embedding of the GatewayDispatch envelope as consumed by the
middleware: the middleware reads only its `data` dictionary; opcode,
sequence number and event name are carried along. -/
structure GatewayDispatch where
  op : Int
  seq : Option Nat
  event_name : Option String
  data : PyDict

/-- Embedding of guild_role_update_middleware
(src/pincer/middleware/guild_role_update.py, lines 39-46):
decode the event from the payload data; if the guild cache holds the
guild with the decoded guild_id, replace its roles list by the
comprehension `[role if role.id != event.role.id else event.role for role
in guild.roles]`; return the pair of the internal event name and the
event.  Decode failure (a Python exception inside from_dict) is `none`;
the in-place mutation of the cached guild is returned as the updated
cache. -/
def guild_role_update_middleware (guilds : GuildCache)
    (payload : GatewayDispatch) :
    Option ((String × GuildRoleUpdateEvent) × GuildCache) :=
  match GuildRoleUpdateEvent.from_dict payload.data with
  | none => none
  | some event =>
    let guilds' : GuildCache :=
      match guilds event.guild_id with
      | none => guilds
      | some guild =>
        let newRoles := guild.roles.map
          (fun role => if role.id ≠ event.role.id then role else event.role)
        fun k => if k = event.guild_id
          then some { guild with roles := newRoles }
          else guilds k
    some (("on_guild_role_update", event), guilds')

/-- The guild cache after running guild_role_update_middleware: the
updated cache when the transform returns, the unchanged cache when decode
fails (the envelope is dropped and the cache untouched). -/
def roleUpdateCacheAfter (guilds : GuildCache) (payload : GatewayDispatch) :
    GuildCache :=
  match guild_role_update_middleware guilds payload with
  | some (_, guilds') => guilds'
  | none => guilds

/-- The client facade as the middleware sees it: the shared guild cache
and opaque references standing for the client object itself and its http
session (the `self` and `self.http` Python objects injected into message
payloads). -/
structure Client where
  guilds : GuildCache
  self_ref : Nat
  http_ref : Nat

/-- Modelled from the spec: the UserMessage data object (the declarative
data-object decode layer is an external collaborator,
`decode(raw) -> T`); the typed message is represented by the source
dictionary it was decoded from. -/
structure UserMessage where
  raw : PyDict

/-- Modelled from the spec: `UserMessage.from_dict`, the external decode
capability applied to a message dictionary. -/
def UserMessage.from_dict (d : PyDict) : UserMessage := ⟨d⟩

/-- Embedding of message_create_middleware
(src/pincer/middleware/message_create.py, lines 10-26): returns the
internal event name and a singleton list holding the UserMessage decoded
from the dictionary literal
`{"_client": self, "_http": self.http, **payload.data}`. -/
def message_create_middleware (client : Client) (payload : GatewayDispatch) :
    String × List UserMessage :=
  ("on_message",
    [UserMessage.from_dict
      (pyMerge [("_client", .vobj client.self_ref),
                ("_http", .vobj client.http_ref)] payload.data)])

/-- The Python exception Guild.from_dict actually raises at runtime on
its raise path: NameError, from resolving a name that is not bound in the
module at runtime. -/
inductive PyErr where
  | nameError (name : String) : PyErr
deriving DecidableEq, Repr

/-- Modelled from the spec: `APIObject.from_dict` specialised to Guild
(src/pincer/utils/api_object.py is not under src).  The declarative
decode layer fills each dataclass field from the dictionary entry of the
same name, falling back to the field default when the entry is missing
(§9: typed decode with an explicit missing sentinel); for the modelled
fields the defaults are the empty string or zero, for roles the empty
list, and for `unavailable` the dataclass default `False` of line 343 of
guild.py. -/
def APIObject.guild_from_dict (d : PyDict) : Guild :=
  { id := match pyDictGet d "id" with | some (.vstr s) => s | _ => ""
    name := match pyDictGet d "name" with | some (.vstr s) => s | _ => ""
    owner_id := match pyDictGet d "owner_id" with | some (.vstr s) => s | _ => ""
    afk_timeout := match pyDictGet d "afk_timeout" with
      | some (.vint n) => n.toNat | _ => 0
    roles := match pyDictGet d "roles" with
      | some (.vlist xs) => xs.filterMap Role.from_dict
      | _ => []
    unavailable := ((pyDictGet d "unavailable").map pyTruthy).getD false }

/-- Embedding of Guild.from_dict
(src/pincer/objects/guild/guild.py, lines 431-438), with runtime-exact
name resolution: when `data.get("unavailable", False)` is truthy the
method executes `raise UnavailableGuildError(f"Guild ...")`, but
UnavailableGuildError is imported only inside the `if TYPE_CHECKING:`
block (line 29 of the source), so the name is unbound at runtime;
Python resolves the callable of a call before evaluating its argument,
so the statement raises NameError without ever building the message
f-string (`data["id"]` is not evaluated).  Otherwise decoding proceeds
through the parent class from_dict. -/
def Guild.from_dict (d : PyDict) : Except PyErr Guild :=
  if pyTruthy (pyDictGetD d "unavailable" (.vbool false)) then
    .error (.nameError "UnavailableGuildError")
  else
    .ok (APIObject.guild_from_dict d)

/-- Modelled from the spec: the protocol envelope of §3, {opcode, optional
sequence number, optional event name, opaque structured payload}.  The
payload is carried as its canonical byte sequence; the components under
src never inspect its structure beyond the dictionary view modelled
above. -/
structure Envelope where
  opcode : Nat
  sequence : Option Nat
  event_name : Option String
  data : List Nat
deriving DecidableEq, Repr

namespace WireCodec

/-- Serialisation of an optional sequence number: a presence tag followed
by the value. -/
def encodeOptNat : Option Nat → List Nat
  | none => [0]
  | some n => [1, n]

/-- Serialisation of a string: its length followed by its character
codes. -/
def encodeString (s : String) : List Nat :=
  s.data.length :: s.data.map Char.toNat

/-- Serialisation of an optional event name. -/
def encodeOptStr : Option String → List Nat
  | none => [0]
  | some s => 1 :: encodeString s

/-- Modelled from the spec: `encode(Envelope) -> bytes` (§4.1).  The wire
format is not fixed by the spec; the model serialises the four envelope
components in order, with the payload length-prefixed, producing one
canonical byte sequence per envelope. -/
def encode (e : Envelope) : List Nat :=
  e.opcode :: (encodeOptNat e.sequence ++ encodeOptStr e.event_name
    ++ e.data.length :: e.data)

/-- Parses an optional sequence number, returning it with the remaining
input. -/
def parseOptNat : List Nat → Option (Option Nat × List Nat)
  | 0 :: rest => some (none, rest)
  | 1 :: n :: rest => some (some n, rest)
  | _ => none

/-- Parses a length-prefixed string. -/
def parseString : List Nat → Option (String × List Nat)
  | n :: rest =>
    if n ≤ rest.length then
      some (String.mk ((rest.take n).map Char.ofNat), rest.drop n)
    else none
  | [] => none

/-- Parses an optional event name. -/
def parseOptStr : List Nat → Option (Option String × List Nat)
  | 0 :: rest => some (none, rest)
  | 1 :: rest => (parseString rest).map (fun p => (some p.fst, p.snd))
  | _ => none

/-- Parses the length-prefixed opaque payload. -/
def parseData : List Nat → Option (List Nat × List Nat)
  | n :: rest =>
    if n ≤ rest.length then some (rest.take n, rest.drop n) else none
  | [] => none

/-- Modelled from the spec: `decode(bytes) -> Envelope | DecodeError`
(§4.1), the inverse direction of the codec; `none` is the decode
error.  Trailing bytes after the payload are malformed. -/
def decode (b : List Nat) : Option Envelope :=
  match b with
  | [] => none
  | op :: r1 =>
    match parseOptNat r1 with
    | none => none
    | some (sq, r2) =>
      match parseOptStr r2 with
      | none => none
      | some (ev, r3) =>
        match parseData r3 with
        | none => none
        | some (dt, r4) =>
          if r4 = [] then some ⟨op, sq, ev, dt⟩ else none

/-- A well-formed envelope byte sequence: one in canonical form, the form
`encode` emits (§8 round-trip, modulo insignificant whitespace and
ordering — the canonical form is the chosen representative of that
equivalence). -/
def WellFormed (b : List Nat) : Prop :=
  ∃ e : Envelope, encode e = b

end WireCodec

/-- Modelled from the spec: the sequence tracking of the Session State
Machine in the Ready state (§4.3): every inbound envelope with a sequence
number updates sequence_watermark last-write-wins; an envelope without
one leaves it unchanged. -/
def updateWatermark (w : Nat) (env : Envelope) : Nat :=
  match env.sequence with
  | some n => n
  | none => w

/-- Modelled from the spec: processing a finite sequence of inbound
envelopes in the Ready state, threading the sequence watermark. -/
def processEnvelopes (w : Nat) (envs : List Envelope) : Nat :=
  envs.foldl updateWatermark w

/-- The mode of a handler registration (§3 HandlerRegistration). -/
inductive HandlerMode where
  | Persistent : HandlerMode
  | OnceOnly : HandlerMode
deriving DecidableEq, Repr

/-- Modelled from the spec: a HandlerRegistration (§3); the callback is
represented by an identifier so invocations can be counted. -/
structure HandlerRegistration where
  internal_event_name : String
  callback : Nat
  mode : HandlerMode
deriving DecidableEq, Repr

/-- Modelled from the spec: step 3 of Dispatcher.handle (§4.4): all
registrations for the internal event name are invoked in registration
order, and OnceOnly entries for that name are removed.  Returns the
invoked callback identifiers in order together with the registry that
remains. -/
def dispatchEvent (regs : List HandlerRegistration) (name : String) :
    List Nat × List HandlerRegistration :=
  ((regs.filter (fun r => r.internal_event_name = name)).map
      (fun r => r.callback),
   regs.filter
     (fun r => ¬(r.internal_event_name = name ∧ r.mode = HandlerMode.OnceOnly)))

/-- Dispatching a finite sequence of internal events through the
registry, accumulating every invocation. -/
def dispatchAll (regs : List HandlerRegistration) (names : List String) :
    List Nat × List HandlerRegistration :=
  match names with
  | [] => ([], regs)
  | n :: rest =>
    let step := dispatchEvent regs n
    let tail := dispatchAll step.snd rest
    (step.fst ++ tail.fst, tail.snd)

/-! Concrete inputs used by the witnesses: the §8 scenario of the
specification and small variations of it. -/

/-- The §8 scenario payload data:
`{guild_id: "1", role: {id: "9", name: "new"}}`. -/
def scnData : PyDict :=
  [("guild_id", .vstr "1"),
   ("role", .vdict [("id", .vstr "9"), ("name", .vstr "new")])]

/-- The §8 scenario Dispatch envelope, opcode 0, sequence 5, event name
GUILD_ROLE_UPDATE. -/
def scnPayload : GatewayDispatch := ⟨0, some 5, some "GUILD_ROLE_UPDATE", scnData⟩

/-- The §8 scenario cached guild "1" holding role "9" named "old". -/
def scnGuild : Guild := ⟨"1", "guild-one", "42", 300, [⟨"9", "old"⟩], false⟩

/-- The §8 scenario guild cache: guild "1" only. -/
def scnCache : GuildCache := fun k => if k = "1" then some scnGuild else none

/-- An empty guild cache: no guild is cached. -/
def emptyCache : GuildCache := fun _ => none

/-- A cached guild "1" with two roles, one of which matches role id
"9". -/
def scnGuildTwoRoles : Guild :=
  ⟨"1", "guild-one", "42", 300, [⟨"8", "keep"⟩, ⟨"9", "old"⟩], false⟩

/-- A second cached guild, untouched by events for guild "1". -/
def scnOtherGuild : Guild := ⟨"2", "guild-two", "43", 60, [⟨"7", "other"⟩], false⟩

/-- A guild cache with two guilds. -/
def scnCacheTwo : GuildCache := fun k =>
  if k = "1" then some scnGuildTwoRoles
  else if k = "2" then some scnOtherGuild
  else none

/-- A concrete run of inbound envelopes: sequence numbers 3 and 5 with a
sequence-free control envelope between them. -/
def scnEnvs : List Envelope :=
  [⟨0, some 3, some "A", []⟩, ⟨11, none, none, []⟩, ⟨0, some 5, some "B", []⟩]

/-- A concrete registry: one OnceOnly handler for event E and one
Persistent handler for event F. -/
def scnRegs : List HandlerRegistration :=
  [⟨"E", 7, HandlerMode.OnceOnly⟩, ⟨"F", 8, HandlerMode.Persistent⟩]

/-! Theorems. -/

/-- C1: for every client whose guild cache contains a guild with id equal
to the guild_id of the payload, and whose roles list contains a role with
the id of the decoded role, guild_role_update_middleware replaces exactly
the matching entries of the roles list of that cached guild with the
decoded role: the updated cache still holds the guild, the list keeps its
length, and every position whose role id equals the id of the decoded
role now holds the decoded role. -/
theorem guild_role_update_replaces_matching_role
    (guilds : GuildCache) (payload : GatewayDispatch)
    (event : GuildRoleUpdateEvent) (guild : Guild)
    (hdec : GuildRoleUpdateEvent.from_dict payload.data = some event)
    (hg : guilds event.guild_id = some guild) :
    ∃ guild' : Guild,
      roleUpdateCacheAfter guilds payload event.guild_id = some guild' ∧
      guild'.roles.length = guild.roles.length ∧
      ∀ i (h1 : i < guild.roles.length) (h2 : i < guild'.roles.length),
        (guild.roles.get ⟨i, h1⟩).id = event.role.id →
          guild'.roles.get ⟨i, h2⟩ = event.role := by
  refine ⟨{ guild with
      roles := guild.roles.map fun role =>
        if role.id ≠ event.role.id then role else event.role },
    ?_, ?_, ?_⟩
  · simp [roleUpdateCacheAfter, guild_role_update_middleware, hdec, hg]
  · simp
  · intro i h1 h2 hid
    simp only [List.get_eq_getElem, List.getElem_map] at hid ⊢
    simp [hid]

/-- Witness for C1 at the §8 scenario input: afterwards the cached guild
"1" holds exactly one role, named "new". -/
theorem guild_role_update_replaces_matching_role_witness :
    (∃ guild' : Guild,
      roleUpdateCacheAfter scnCache scnPayload "1" = some guild' ∧
      guild'.roles.length = 1 ∧
      ∀ i (h1 : i < scnGuild.roles.length) (h2 : i < guild'.roles.length),
        (scnGuild.roles.get ⟨i, h1⟩).id = "9" →
          guild'.roles.get ⟨i, h2⟩ = ⟨"9", "new"⟩) ∧
    (roleUpdateCacheAfter scnCache scnPayload "1").map
      (fun g => g.roles.map Role.name) = some ["new"] :=
  ⟨guild_role_update_replaces_matching_role scnCache scnPayload
    ⟨"1", ⟨"9", "new"⟩⟩ scnGuild rfl rfl, rfl⟩

/-- C2: when the guild_id of the decoded payload is absent from the guild
cache, guild_role_update_middleware returns normally with the cache
entirely unchanged: a no-op on cached state, not an error. -/
theorem guild_role_update_absent_guild_noop
    (guilds : GuildCache) (payload : GatewayDispatch)
    (event : GuildRoleUpdateEvent)
    (hdec : GuildRoleUpdateEvent.from_dict payload.data = some event)
    (habs : guilds event.guild_id = none) :
    guild_role_update_middleware guilds payload =
      some (("on_guild_role_update", event), guilds) := by
  simp only [guild_role_update_middleware, hdec, habs]

/-- Witness for C2: the §8 scenario payload against an empty cache
returns normally with the cache untouched. -/
theorem guild_role_update_absent_guild_noop_witness :
    guild_role_update_middleware emptyCache scnPayload =
      some (("on_guild_role_update", ⟨"1", ⟨"9", "new"⟩⟩), emptyCache) :=
  guild_role_update_absent_guild_noop emptyCache scnPayload
    ⟨"1", ⟨"9", "new"⟩⟩ rfl rfl

/-- C3: for every payload whose data decodes, guild_role_update_middleware
returns the pair whose first component is the internal event name
on_guild_role_update and whose second component is the decoded
GuildRoleUpdateEvent. -/
theorem guild_role_update_returns_event_pair
    (guilds : GuildCache) (payload : GatewayDispatch)
    (event : GuildRoleUpdateEvent)
    (hdec : GuildRoleUpdateEvent.from_dict payload.data = some event) :
    ∃ guilds' : GuildCache,
      guild_role_update_middleware guilds payload =
        some (("on_guild_role_update", event), guilds') := by
  cases hg : guilds event.guild_id with
  | none => exact ⟨guilds, by simp only [guild_role_update_middleware, hdec, hg]⟩
  | some guild =>
    refine ⟨?_, ?_⟩
    · exact fun k =>
        if k = event.guild_id then
          some { guild with
            roles := guild.roles.map fun role =>
              if role.id ≠ event.role.id then role else event.role }
        else guilds k
    · simp only [guild_role_update_middleware, hdec, hg]

/-- Witness for C3 at the §8 scenario input: the returned pair is the
event name on_guild_role_update and the event whose role is named
"new". -/
theorem guild_role_update_returns_event_pair_witness :
    ∃ guilds' : GuildCache,
      guild_role_update_middleware scnCache scnPayload =
        some (("on_guild_role_update", ⟨"1", ⟨"9", "new"⟩⟩), guilds') :=
  guild_role_update_returns_event_pair scnCache scnPayload
    ⟨"1", ⟨"9", "new"⟩⟩ rfl

/-- Lookup in a merged dictionary: the extra entries win, the base
entries fill in the keys the extra dictionary lacks. -/
theorem pyDictGet_pyMerge (base extra : PyDict) (k : String) :
    pyDictGet (pyMerge base extra) k =
      match pyDictGet extra k with
      | some v => some v
      | none => pyDictGet base k := by
  induction base with
  | nil =>
    simp only [pyMerge, List.filter_nil, List.nil_append]
    cases pyDictGet extra k <;> rfl
  | cons p rest ih =>
    obtain ⟨k0, v⟩ := p
    by_cases hk : k0 = k
    · subst hk
      cases he : pyDictGet extra k0 with
      | none =>
        have hstep : pyMerge ((k0, v) :: rest) extra = (k0, v) :: pyMerge rest extra := by
          simp [pyMerge, List.filter_cons, he]
        simp [hstep, pyDictGet, he]
      | some w =>
        have hstep : pyMerge ((k0, v) :: rest) extra = pyMerge rest extra := by
          simp [pyMerge, List.filter_cons, he]
        simp [hstep, ih, he]
    · have hstep : pyDictGet (pyMerge ((k0, v) :: rest) extra) k =
          pyDictGet (pyMerge rest extra) k := by
        cases he : pyDictGet extra k0 with
        | none =>
          have h2 : pyMerge ((k0, v) :: rest) extra = (k0, v) :: pyMerge rest extra := by
            simp [pyMerge, List.filter_cons, he]
          simp [h2, pyDictGet, hk]
        | some w =>
          have h2 : pyMerge ((k0, v) :: rest) extra = pyMerge rest extra := by
            simp [pyMerge, List.filter_cons, he]
          simp [h2]
      rw [hstep, ih]
      cases pyDictGet extra k with
      | none => simp [pyDictGet, hk]
      | some w => rfl

/-- C4: message_create_middleware, as a middleware transform, returns the
pair of the internal event name on_message and one typed UserMessage
decoded from the data dictionary of the envelope merged with the client
context: keys of the payload data keep their values, and keys the payload
lacks fall back to the injected client context entries. -/
theorem message_create_returns_on_message_pair
    (client : Client) (payload : GatewayDispatch) :
    ∃ msg : UserMessage,
      message_create_middleware client payload = ("on_message", [msg]) ∧
      (∀ k v, pyDictGet payload.data k = some v → pyDictGet msg.raw k = some v) ∧
      (∀ k, pyDictGet payload.data k = none →
        pyDictGet msg.raw k =
          pyDictGet [("_client", .vobj client.self_ref),
                     ("_http", .vobj client.http_ref)] k) := by
  refine ⟨UserMessage.from_dict
    (pyMerge [("_client", .vobj client.self_ref),
              ("_http", .vobj client.http_ref)] payload.data), rfl, ?_, ?_⟩
  · intro k v hv
    rw [UserMessage.from_dict, pyDictGet_pyMerge, hv]
  · intro k hk
    rw [UserMessage.from_dict, pyDictGet_pyMerge, hk]

/-- Witness for C4 at a concrete client and payload: the message carries
the payload content and the injected client reference. -/
theorem message_create_returns_on_message_pair_witness :
    ∃ msg : UserMessage,
      message_create_middleware ⟨scnCache, 1, 2⟩
          ⟨0, some 6, some "MESSAGE_CREATE", [("content", .vstr "hi")]⟩ =
        ("on_message", [msg]) ∧
      pyDictGet msg.raw "content" = some (.vstr "hi") ∧
      pyDictGet msg.raw "_client" = some (.vobj 1) := by
  obtain ⟨msg, hm, hkeep, hfall⟩ := message_create_returns_on_message_pair
    ⟨scnCache, 1, 2⟩ ⟨0, some 6, some "MESSAGE_CREATE", [("content", .vstr "hi")]⟩
  exact ⟨msg, hm, hkeep "content" (.vstr "hi") rfl,
    by rw [hfall "_client" rfl]; rfl⟩

/-- C8: the cache side effect of guild_role_update_middleware is
idempotent: running the transform twice in succession on the same payload
leaves the cached guild state it leaves after one run. -/
theorem guild_role_update_idempotent
    (guilds : GuildCache) (payload : GatewayDispatch) :
    roleUpdateCacheAfter (roleUpdateCacheAfter guilds payload) payload =
      roleUpdateCacheAfter guilds payload := by
  cases hdec : GuildRoleUpdateEvent.from_dict payload.data with
  | none => simp [roleUpdateCacheAfter, guild_role_update_middleware, hdec]
  | some event =>
    cases hg : guilds event.guild_id with
    | none =>
      have h1 : roleUpdateCacheAfter guilds payload = guilds := by
        simp [roleUpdateCacheAfter, guild_role_update_middleware, hdec, hg]
      rw [h1]
      exact h1
    | some guild =>
      have h1 : roleUpdateCacheAfter guilds payload = fun k =>
          if k = event.guild_id then
            some { guild with
              roles := guild.roles.map fun role =>
                if role.id ≠ event.role.id then role else event.role }
          else guilds k := by
        simp [roleUpdateCacheAfter, guild_role_update_middleware, hdec, hg]
      rw [h1]
      simp only [roleUpdateCacheAfter, guild_role_update_middleware, hdec,
        if_pos rfl]
      funext k
      by_cases hk : k = event.guild_id
      · subst hk
        simp
        intro a ha hid
        by_cases h : a.id = event.role.id
        · simp [h]
        · rw [if_neg h] at hid
          exact absurd hid h
      · simp [hk]

/-- C9: frame property of guild_role_update_middleware: only the roles
field of the single cached guild matching the guild_id of the event can
change; every other cached guild is untouched, the roles list keeps its
length and order, every role whose id differs from the id of the event
role is unchanged at its position, when no role id matches the roles list
is fully unchanged (no insertion), and all other fields of the matched
guild are preserved. -/
theorem guild_role_update_frame
    (guilds : GuildCache) (payload : GatewayDispatch)
    (event : GuildRoleUpdateEvent) (guild : Guild)
    (hdec : GuildRoleUpdateEvent.from_dict payload.data = some event)
    (hg : guilds event.guild_id = some guild) :
    ∃ guild' : Guild,
      roleUpdateCacheAfter guilds payload event.guild_id = some guild' ∧
      (∀ k, k ≠ event.guild_id →
        roleUpdateCacheAfter guilds payload k = guilds k) ∧
      guild'.roles.length = guild.roles.length ∧
      (∀ i (h1 : i < guild.roles.length) (h2 : i < guild'.roles.length),
        (guild.roles.get ⟨i, h1⟩).id ≠ event.role.id →
          guild'.roles.get ⟨i, h2⟩ = guild.roles.get ⟨i, h1⟩) ∧
      ((∀ r ∈ guild.roles, r.id ≠ event.role.id) →
        guild'.roles = guild.roles) ∧
      guild'.id = guild.id ∧ guild'.name = guild.name ∧
      guild'.owner_id = guild.owner_id ∧
      guild'.afk_timeout = guild.afk_timeout ∧
      guild'.unavailable = guild.unavailable := by
  refine ⟨{ guild with
      roles := guild.roles.map fun role =>
        if role.id ≠ event.role.id then role else event.role },
    ?_, ?_, ?_, ?_, ?_, rfl, rfl, rfl, rfl, rfl⟩
  · simp [roleUpdateCacheAfter, guild_role_update_middleware, hdec, hg]
  · intro k hk
    simp [roleUpdateCacheAfter, guild_role_update_middleware, hdec, hg, hk]
  · simp
  · intro i h1 h2 hid
    simp only [List.get_eq_getElem] at hid ⊢
    simp only [List.getElem_map]
    rw [if_pos hid]
  · intro hall
    have hfix : ∀ a ∈ guild.roles,
        (if a.id ≠ event.role.id then a else event.role) = a := by
      intro a ha
      rw [if_pos (hall a ha)]
    calc (guild.roles.map fun role =>
          if role.id ≠ event.role.id then role else event.role)
        = guild.roles.map id := List.map_congr_left hfix
      _ = guild.roles := List.map_id guild.roles

/-- Witness for C9: a cache with two guilds, the matched guild holding a
non-matching role "8" and the matching role "9"; afterwards guild "2" is
untouched and guild "1" holds the roles named keep and new in order. -/
theorem guild_role_update_frame_witness :
    (∃ guild' : Guild,
      roleUpdateCacheAfter scnCacheTwo scnPayload "1" = some guild' ∧
      (∀ k, k ≠ "1" →
        roleUpdateCacheAfter scnCacheTwo scnPayload k = scnCacheTwo k) ∧
      guild'.roles.length = scnGuildTwoRoles.roles.length ∧
      (∀ i (h1 : i < scnGuildTwoRoles.roles.length)
          (h2 : i < guild'.roles.length),
        (scnGuildTwoRoles.roles.get ⟨i, h1⟩).id ≠ "9" →
          guild'.roles.get ⟨i, h2⟩ = scnGuildTwoRoles.roles.get ⟨i, h1⟩) ∧
      ((∀ r ∈ scnGuildTwoRoles.roles, r.id ≠ "9") →
        guild'.roles = scnGuildTwoRoles.roles) ∧
      guild'.id = scnGuildTwoRoles.id ∧ guild'.name = scnGuildTwoRoles.name ∧
      guild'.owner_id = scnGuildTwoRoles.owner_id ∧
      guild'.afk_timeout = scnGuildTwoRoles.afk_timeout ∧
      guild'.unavailable = scnGuildTwoRoles.unavailable) ∧
    roleUpdateCacheAfter scnCacheTwo scnPayload "2" = some scnOtherGuild ∧
    (roleUpdateCacheAfter scnCacheTwo scnPayload "1").map
      (fun g => g.roles.map Role.name) = some ["keep", "new"] :=
  ⟨guild_role_update_frame scnCacheTwo scnPayload ⟨"1", ⟨"9", "new"⟩⟩
    scnGuildTwoRoles rfl rfl, rfl, rfl⟩

/-- Processing envelopes from watermark w ends at the last sequence
number carried by the run, or at w when none was carried. -/
theorem processEnvelopes_eq_getLastD (envs : List Envelope) (w : Nat) :
    processEnvelopes w envs = (envs.filterMap Envelope.sequence).getLastD w := by
  induction envs generalizing w with
  | nil => rfl
  | cons e rest ih =>
    have hstep : processEnvelopes w (e :: rest)
        = processEnvelopes (updateWatermark w e) rest := rfl
    rw [hstep, ih]
    cases hs : e.sequence with
    | none =>
      have hu : updateWatermark w e = w := by simp [updateWatermark, hs]
      rw [hu, List.filterMap_cons, hs]
    | some n =>
      have hu : updateWatermark w e = n := by simp [updateWatermark, hs]
      rw [hu, List.filterMap_cons, hs]
      exact (List.getLastD_cons w n (rest.filterMap Envelope.sequence)).symm

/-- Folding max over a chain of non-decreasing numbers from a lower
start reaches the last element. -/
theorem chain_foldl_max (l : List Nat) : ∀ a : Nat,
    List.Chain (· ≤ ·) a l → l.foldl max a = l.getLastD a := by
  induction l with
  | nil => intro a _; rfl
  | cons b t ih =>
    intro a hch
    rw [List.chain_cons] at hch
    obtain ⟨hab, hbt⟩ := hch
    calc (b :: t).foldl max a = t.foldl max (max a b) := rfl
      _ = t.foldl max b := by rw [max_eq_right hab]
      _ = t.getLastD b := ih b hbt
      _ = (b :: t).getLastD a := (List.getLastD_cons a b t).symm

/-- C5: for every finite run of inbound envelopes whose carried sequence
numbers are monotonically non-decreasing (the envelope invariant of §3),
the sequence watermark after processing from the Ready-entry value 0
equals the maximum sequence number seen, despite each envelope updating
the watermark last-write-wins. -/
theorem sequence_watermark_eq_max (envs : List Envelope)
    (hmono : List.Chain' (· ≤ ·) (envs.filterMap Envelope.sequence)) :
    processEnvelopes 0 envs = (envs.filterMap Envelope.sequence).foldl max 0 := by
  rw [processEnvelopes_eq_getLastD]
  cases hl : envs.filterMap Envelope.sequence with
  | nil => rfl
  | cons a t =>
    rw [hl] at hmono
    have hch : List.Chain (· ≤ ·) a t := hmono
    calc (a :: t).getLastD 0 = t.getLastD a := List.getLastD_cons 0 a t
      _ = t.foldl max a := (chain_foldl_max t a hch).symm
      _ = t.foldl max (max 0 a) := by rw [Nat.zero_max]
      _ = (a :: t).foldl max 0 := rfl

/-- Witness for C5 on a concrete run with sequence numbers 3 and 5: the
watermark ends at 5, the maximum seen. -/
theorem sequence_watermark_eq_max_witness :
    processEnvelopes 0 scnEnvs
      = (scnEnvs.filterMap Envelope.sequence).foldl max 0 ∧
    processEnvelopes 0 scnEnvs = 5 :=
  ⟨sequence_watermark_eq_max scnEnvs (by simp [scnEnvs]), rfl⟩

/-- The invocations one dispatch produces for a given callback, counted:
one per registration for the event name carrying that callback. -/
theorem dispatchEvent_count (regs : List HandlerRegistration) (E : String)
    (cb : Nat) :
    (dispatchEvent regs E).fst.count cb
      = regs.countP
          (fun r => (r.callback == cb) && decide (r.internal_event_name = E)) := by
  show ((regs.filter fun r => r.internal_event_name = E).map
    fun r => r.callback).count cb = _
  rw [List.count_eq_countP, List.countP_map, List.countP_filter]
  rfl

/-- A registry with no registration for a callback never invokes it,
however many events are dispatched. -/
theorem dispatchAll_count_zero (cb : Nat) (names : List String) :
    ∀ regs : List HandlerRegistration,
      (∀ r ∈ regs, r.callback ≠ cb) →
      (dispatchAll regs names).fst.count cb = 0 := by
  induction names with
  | nil => intro regs _; rfl
  | cons n rest ih =>
    intro regs hclean
    have hfst : (dispatchAll regs (n :: rest)).fst
        = (dispatchEvent regs n).fst ++ (dispatchAll (dispatchEvent regs n).snd rest).fst := rfl
    rw [hfst, List.count_append]
    have h1 : (dispatchEvent regs n).fst.count cb = 0 := by
      rw [dispatchEvent_count, List.countP_eq_zero]
      intro r hr
      simp only [Bool.and_eq_true, beq_iff_eq, decide_eq_true_eq, not_and]
      intro hcb
      exact absurd hcb (hclean r hr)
    have h2 : (dispatchAll (dispatchEvent regs n).snd rest).fst.count cb = 0 := by
      apply ih
      intro r hr
      have hmem : r ∈ regs := (List.mem_filter.mp hr).1
      exact hclean r hmem
    rw [h1, h2]

/-- C6: a handler registered OnceOnly for internal event E, and not
registered in any other way, is invoked exactly once by any dispatch run
that starts with an envelope mapping to E: it fires in that first
dispatch and, its entry having been removed, never again — in particular,
two envelopes both mapping to E yield exactly one invocation. -/
theorem once_only_invoked_exactly_once
    (regs : List HandlerRegistration) (E : String) (cb : Nat)
    (hcount : regs.count ⟨E, cb, HandlerMode.OnceOnly⟩ = 1)
    (honly : ∀ r ∈ regs, r.callback = cb → r = ⟨E, cb, HandlerMode.OnceOnly⟩)
    (rest : List String) :
    (dispatchAll regs (E :: rest)).fst.count cb = 1 := by
  have hfst : (dispatchAll regs (E :: rest)).fst
      = (dispatchEvent regs E).fst ++ (dispatchAll (dispatchEvent regs E).snd rest).fst := rfl
  rw [hfst, List.count_append]
  have h1 : (dispatchEvent regs E).fst.count cb = 1 := by
    rw [dispatchEvent_count]
    rw [List.count_eq_countP] at hcount
    rw [← hcount]
    apply List.countP_congr
    intro r hr
    simp only [Bool.and_eq_true, beq_iff_eq, decide_eq_true_eq]
    constructor
    · rintro ⟨hcb, _⟩
      exact honly r hr hcb
    · intro hreq
      rw [hreq]
      exact ⟨rfl, rfl⟩
  have h2 : (dispatchAll (dispatchEvent regs E).snd rest).fst.count cb = 0 := by
    apply dispatchAll_count_zero
    intro r hr hcb
    obtain ⟨hmem, hpred⟩ := List.mem_filter.mp hr
    have hreq := honly r hmem hcb
    rw [hreq] at hpred
    simp at hpred
  rw [h1, h2]

/-- Witness for C6: registry scnRegs holds callback 7 OnceOnly for E;
dispatching two envelopes mapping to E invokes it exactly once. -/
theorem once_only_invoked_exactly_once_witness :
    (dispatchAll scnRegs ["E", "E"]).fst.count 7 = 1 :=
  once_only_invoked_exactly_once scnRegs "E" 7 (by decide) (by decide) ["E"]

/-- Parsing an encoded optional sequence number consumes exactly it. -/
theorem parseOptNat_encodeOptNat (s : Option Nat) (t : List Nat) :
    WireCodec.parseOptNat (WireCodec.encodeOptNat s ++ t) = some (s, t) := by
  cases s <;> rfl

/-- Parsing an encoded string consumes exactly it. -/
theorem parseString_encodeString (s : String) (t : List Nat) :
    WireCodec.parseString (WireCodec.encodeString s ++ t) = some (s, t) := by
  obtain ⟨cs⟩ := s
  have hlen : (cs.map Char.toNat).length = cs.length := List.length_map cs Char.toNat
  have hcond : cs.length ≤ (cs.map Char.toNat ++ t).length := by
    rw [List.length_append, hlen]
    exact Nat.le_add_right _ _
  have htake : (cs.map Char.toNat ++ t).take cs.length = cs.map Char.toNat :=
    List.take_left' hlen
  have hdrop : (cs.map Char.toNat ++ t).drop cs.length = t :=
    List.drop_left' hlen
  have hmap : (cs.map Char.toNat).map Char.ofNat = cs := by
    rw [List.map_map]
    have hco : Char.ofNat ∘ Char.toNat = id := funext Char.ofNat_toNat
    rw [hco, List.map_id]
  show WireCodec.parseString (cs.length :: (cs.map Char.toNat ++ t)) = _
  simp only [WireCodec.parseString, htake, hdrop, hmap, if_pos hcond]

/-- Parsing an encoded optional event name consumes exactly it. -/
theorem parseOptStr_encodeOptStr (s : Option String) (t : List Nat) :
    WireCodec.parseOptStr (WireCodec.encodeOptStr s ++ t) = some (s, t) := by
  cases s with
  | none => rfl
  | some str =>
    show WireCodec.parseOptStr (1 :: (WireCodec.encodeString str ++ t)) = _
    simp only [WireCodec.parseOptStr, parseString_encodeString]
    rfl

/-- Parsing a length-prefixed payload that ends the frame consumes all of
it. -/
theorem parseData_exact (l : List Nat) :
    WireCodec.parseData (l.length :: l) = some (l, []) := by
  simp only [WireCodec.parseData, if_pos (le_refl l.length), List.take_length,
    List.drop_length]

/-- Decoding the encoding of any envelope recovers the envelope. -/
theorem decode_encode (e : Envelope) :
    WireCodec.decode (WireCodec.encode e) = some e := by
  obtain ⟨op, sq, ev, dt⟩ := e
  show WireCodec.decode
    (op :: (WireCodec.encodeOptNat sq ++ WireCodec.encodeOptStr ev
      ++ dt.length :: dt)) = _
  simp only [WireCodec.decode, List.append_assoc, parseOptNat_encodeOptNat,
    parseOptStr_encodeOptStr, parseData_exact, if_pos rfl, if_true]

/-- C7: for every well-formed envelope byte sequence, the Wire Codec
decodes it successfully and re-encoding the decoded envelope yields the
original bytes. -/
theorem wire_codec_round_trip (b : List Nat) (h : WireCodec.WellFormed b) :
    ∃ e : Envelope, WireCodec.decode b = some e ∧ WireCodec.encode e = b := by
  obtain ⟨e, he⟩ := h
  exact ⟨e, by rw [← he, decode_encode], he⟩

/-- Witness for C7 on the concrete frame encoding opcode 0, sequence 5,
event name E and payload bytes 1, 2. -/
theorem wire_codec_round_trip_witness :
    WireCodec.WellFormed [0, 1, 5, 1, 1, 69, 2, 1, 2] ∧
    ∃ e : Envelope, WireCodec.decode [0, 1, 5, 1, 1, 69, 2, 1, 2] = some e ∧
      WireCodec.encode e = [0, 1, 5, 1, 1, 69, 2, 1, 2] :=
  ⟨⟨⟨0, some 5, some "E", [1, 2]⟩, rfl⟩,
   wire_codec_round_trip [0, 1, 5, 1, 1, 69, 2, 1, 2]
     ⟨⟨0, some 5, some "E", [1, 2]⟩, rfl⟩⟩

/-- C10: at a dictionary whose unavailable entry is truthy and whose id
key is present, Guild.from_dict raises NameError — UnavailableGuildError
is bound only under TYPE_CHECKING, so the raise path fails name
resolution — whereas a dictionary without the unavailable key decodes
through the parent from_dict with the unavailable field False, as the
claim describes for that branch. -/
theorem guild_from_dict_truthy_unavailable_nameerror :
    Guild.from_dict
        [("id", PyValue.vstr "5"), ("unavailable", PyValue.vbool true)]
      = .error (.nameError "UnavailableGuildError") ∧
    Guild.from_dict [("id", PyValue.vstr "7")]
      = .ok (APIObject.guild_from_dict [("id", PyValue.vstr "7")]) ∧
    (APIObject.guild_from_dict [("id", PyValue.vstr "7")]).unavailable = false :=
  ⟨rfl, rfl, rfl⟩
